import Mathlib

/-!
Shallow embedding of the IRModule symbol table of matxscript
(src/python/matx/ir/module.py) and of the WordPiece tokenizer wrappers
(src/python/matx/text/wordpiece_tokenizer.py), together with proofs of the
spec claims about them.

The Python layer dispatches every mutating or querying operation to a native
backend (the functions of the local module named after the FFI API); that
backend is not part of the sources, so its operations are modelled from the
spec (each such definition says so in its doc comment).  The Python-visible
logic (the dispatch in the private add method, the key normalization of the
constructor, the dict branch of update, the tokenizer wrapper classes) is
translated directly from the Python sources.
-/

namespace MatxIR

/-- Handle naming a global function.  Python GlobalVar objects compare by
object identity; the mint id models that identity, so two handles are equal
iff they are the same minted object. -/
structure GlobalVar where
  id : Nat
  name : String
deriving DecidableEq, Repr

/-- Handle naming a global type, in the namespace disjoint from functions. -/
structure GlobalTypeVar where
  id : Nat
  name : String
deriving DecidableEq, Repr

/-- Opaque function-kind IR value (a BaseFunc).  The wrapper constructor
records the nullary function that the from_expr helper builds around a bare
expression. -/
inductive Func where
  | ofCode (n : Nat)
  | wrapperOf (body : Nat)
deriving DecidableEq, Repr

/-- Opaque type-kind IR value; it exposes an ordered sequence of constructors
as required by the collaborator contract used by get_type. -/
structure TyValue where
  code : Nat
  constructors : List Nat
deriving DecidableEq, Repr

/-- Standalone expression handed to from_expr: either already a function-kind
value or a bare expression that must be wrapped. -/
inductive RelayExpr where
  | fn (f : Func)
  | bare (body : Nat)
deriving DecidableEq, Repr

/-- Error kinds of the module core (spec section 7). -/
inductive ModError where
  | TypeMismatch
  | DuplicateDefinition
  | UndefinedSymbol
deriving DecidableEq, Repr

/-- The module state: function bindings, type bindings, the optional export
designation and the supply counter used to mint fresh handles (modelling
Python object identity of freshly constructed handles). -/
structure IRModule where
  functions : List (GlobalVar × Func)
  type_definitions : List (GlobalTypeVar × TyValue)
  export_func : Option GlobalVar
  nextId : Nat
deriving DecidableEq, Repr

/-- The empty module. -/
def IRModule.empty : IRModule :=
  { functions := [], type_definitions := [], export_func := none, nextId := 0 }

/-- Modelled from the spec: the native Module_ContainGlobalVar query — whether
a handle for the name is registered in the function namespace. -/
def Module_ContainGlobalVar (m : IRModule) (s : String) : Bool :=
  (m.functions.find? (fun p => p.1.name == s)).isSome

/-- Modelled from the spec: the native Module_GetGlobalVar — strict lookup of
the canonical function handle for a name; it fails with UndefinedSymbol and
never creates a handle (it does not touch the module state). -/
def Module_GetGlobalVar (m : IRModule) (s : String) : Except ModError GlobalVar :=
  match m.functions.find? (fun p => p.1.name == s) with
  | some p => .ok p.1
  | none => .error .UndefinedSymbol

/-- Modelled from the spec: the native Module_GetGlobalTypeVar — strict lookup
of the canonical type handle for a name, failing with UndefinedSymbol. -/
def Module_GetGlobalTypeVar (m : IRModule) (s : String) : Except ModError GlobalTypeVar :=
  match m.type_definitions.find? (fun p => p.1.name == s) with
  | some p => .ok p.1
  | none => .error .UndefinedSymbol

/-- Modelled from the spec: the native Module_Add — bind a function value.
If the name is already bound the canonical handle keeps its identity and the
value is replaced when update is true, while update false fails with
DuplicateDefinition leaving the binding unchanged; a fresh name registers the
supplied handle at the end (insertion order). -/
def Module_Add (m : IRModule) (v : GlobalVar) (f : Func) (update : Bool) :
    Except ModError IRModule :=
  match m.functions.find? (fun p => p.1.name == v.name) with
  | some _ =>
    if update then
      .ok { m with functions :=
        m.functions.map (fun p => if p.1.name == v.name then (p.1, f) else p) }
    else .error .DuplicateDefinition
  | none => .ok { m with functions := m.functions ++ [(v, f)] }

/-- Modelled from the spec: the native Module_AddDef — same contract as
Module_Add, in the type namespace.  A foreign handle for an already-known
name is re-resolved by name, so the canonical handle keeps its identity. -/
def Module_AddDef (m : IRModule) (v : GlobalTypeVar) (t : TyValue) (update : Bool) :
    Except ModError IRModule :=
  match m.type_definitions.find? (fun p => p.1.name == v.name) with
  | some _ =>
    if update then
      .ok { m with type_definitions :=
        m.type_definitions.map (fun p => if p.1.name == v.name then (p.1, t) else p) }
    else .error .DuplicateDefinition
  | none => .ok { m with type_definitions := m.type_definitions ++ [(v, t)] }

/-- Modelled from the spec: the native Module_Lookup_str — resolve a string to
a function handle without creating, and return its bound value. -/
def Module_Lookup_str (m : IRModule) (s : String) : Except ModError Func :=
  match m.functions.find? (fun p => p.1.name == s) with
  | some p => .ok p.2
  | none => .error .UndefinedSymbol

/-- Modelled from the spec: the native Module_Lookup — function binding of a
GlobalVar handle. -/
def Module_Lookup (m : IRModule) (v : GlobalVar) : Except ModError Func :=
  match m.functions.find? (fun p => p.1 == v) with
  | some p => .ok p.2
  | none => .error .UndefinedSymbol

/-- Modelled from the spec: the native Module_LookupDef — type binding of a
GlobalTypeVar handle. -/
def Module_LookupDef (m : IRModule) (v : GlobalTypeVar) : Except ModError TyValue :=
  match m.type_definitions.find? (fun p => p.1 == v) with
  | some p => .ok p.2
  | none => .error .UndefinedSymbol

/-- Value argument of the private add method: the Python dynamic dispatch on
isinstance HLOExpr / Type, with a third case for any other value (which the
assertion rejects). -/
inductive IRValue where
  | func (f : Func)
  | ty (t : TyValue)
  | other (n : Nat)
deriving DecidableEq, Repr

/-- Key argument of the private add method: a raw name string or a handle of
either kind. -/
inductive AddVar where
  | str (s : String)
  | gvar (v : GlobalVar)
  | gtvar (v : GlobalTypeVar)
deriving DecidableEq, Repr

/-- Write-path handle resolution used by the string branch of the private add
method: reuse the registered handle when the name is a known function,
otherwise mint a fresh GlobalVar (the Python code checks
Module_ContainGlobalVar and then either calls Module_GetGlobalVar or
constructs a new GlobalVar object). -/
def IRModule.getOrCreateGlobalVar (m : IRModule) (s : String) : GlobalVar × IRModule :=
  match m.functions.find? (fun p => p.1.name == s) with
  | some p => (p.1, m)
  | none => (⟨m.nextId, s⟩, { m with nextId := m.nextId + 1 })

/-- The private add method of IRModule, translated from the Python source: a
function-kind value resolves a string key through get-or-create and goes to
Module_Add; a type-kind value turns a string key into a freshly constructed
GlobalTypeVar and goes to Module_AddDef; anything else fails the isinstance
assertion (TypeMismatch).  A handle of the wrong kind for the value's
namespace is rejected by the backend's argument typing (TypeMismatch). -/
def IRModule.add (m : IRModule) (var : AddVar) (val : IRValue) (update : Bool) :
    Except ModError IRModule :=
  match val with
  | .func f =>
    match var with
    | .str s =>
      let r := m.getOrCreateGlobalVar s
      Module_Add r.2 r.1 f update
    | .gvar v => Module_Add m v f update
    | .gtvar _ => .error .TypeMismatch
  | .ty t =>
    match var with
    | .str s =>
      Module_AddDef { m with nextId := m.nextId + 1 } ⟨m.nextId, s⟩ t update
    | .gtvar v => Module_AddDef m v t update
    | .gvar _ => .error .TypeMismatch
  | .other _ => .error .TypeMismatch

/-- The setitem sugar: add with update true. -/
def IRModule.setItem (m : IRModule) (var : AddVar) (val : IRValue) :
    Except ModError IRModule :=
  m.add var val true

/-- Key of the getitem lookup: a name string, a GlobalVar or a GlobalTypeVar. -/
inductive GetKey where
  | str (s : String)
  | gvar (v : GlobalVar)
  | gtvar (v : GlobalTypeVar)
deriving DecidableEq, Repr

/-- A definition returned by getitem: either a function or a type. -/
inductive Definition where
  | fn (f : Func)
  | ty (t : TyValue)
deriving DecidableEq, Repr

/-- The getitem dispatcher, translated from the Python source: strings go to
Module_Lookup_str, GlobalVar to Module_Lookup, anything else to
Module_LookupDef. -/
def IRModule.getItem (m : IRModule) : GetKey → Except ModError Definition
  | .str s => (Module_Lookup_str m s).map .fn
  | .gvar v => (Module_Lookup m v).map .fn
  | .gtvar v => (Module_LookupDef m v).map .ty

/-- Modelled from the spec: the native Module_Update (merge) — replay every
function binding and then every type binding of the other module into the
receiver through the add path with update true (last writer wins). -/
def Module_Update (a b : IRModule) : Except ModError IRModule := do
  let m1 ← b.functions.foldlM (fun m p => m.add (.gvar p.1) (.func p.2) true) a
  b.type_definitions.foldlM (fun m p => m.add (.gtvar p.1) (.ty p.2) true) m1

/-- The get_type method, translated from the Python source: resolve the type
handle by name, fetch its bound type from the type_definitions map and return
the handle together with the ordered constructor sequence. -/
def IRModule.get_type (m : IRModule) (s : String) :
    Except ModError (GlobalTypeVar × List Nat) := do
  let tv ← Module_GetGlobalTypeVar m s
  match m.type_definitions.find? (fun p => p.1 == tv) with
  | some p => .ok (tv, p.2.constructors)
  | none => .error .UndefinedSymbol

/-- Map key supplied to the constructor: a name string, a handle of either
kind, or any other object (rejected with TypeMismatch). -/
inductive MapKey where
  | str (s : String)
  | gvar (v : GlobalVar)
  | gtvar (v : GlobalTypeVar)
  | other (n : Nat)
deriving DecidableEq, Repr

/-- Name carried by a well-kinded function map key. -/
def MapKey.funcKeyName : MapKey → String
  | .str s => s
  | .gvar v => v.name
  | .gtvar v => v.name
  | .other _ => ""

/-- Whether a constructor key is acceptable for the functions mapping: a
string or a GlobalVar handle. -/
def MapKey.goodFuncKey : MapKey → Bool
  | .str _ => true
  | .gvar _ => true
  | _ => false

/-- Whether a constructor key is acceptable for the type_definitions mapping:
a string or a GlobalTypeVar handle. -/
def MapKey.goodTypeKey : MapKey → Bool
  | .str _ => true
  | .gtvar _ => true
  | _ => false

/-- Constructor-time normalization of the functions mapping, translated from
the Python source: a string key is replaced by a freshly constructed
GlobalVar of that name (the supply models object identity of the fresh
objects), a GlobalVar key is kept, and any other key raises TypeMismatch. -/
def normalizeFuncKeys : List (MapKey × Func) → Nat →
    Except ModError (List (GlobalVar × Func) × Nat)
  | [], supply => .ok ([], supply)
  | (k, v) :: rest, supply =>
    match k with
    | .str s => do
      let r ← normalizeFuncKeys rest (supply + 1)
      .ok ((⟨supply, s⟩, v) :: r.1, r.2)
    | .gvar g => do
      let r ← normalizeFuncKeys rest supply
      .ok ((g, v) :: r.1, r.2)
    | _ => .error .TypeMismatch

/-- Constructor-time normalization of the type_definitions mapping, translated
from the Python source: a string key becomes a fresh GlobalTypeVar, a
GlobalTypeVar key is kept, anything else raises TypeMismatch. -/
def normalizeTypeKeys : List (MapKey × TyValue) → Nat →
    Except ModError (List (GlobalTypeVar × TyValue) × Nat)
  | [], supply => .ok ([], supply)
  | (k, v) :: rest, supply =>
    match k with
    | .str s => do
      let r ← normalizeTypeKeys rest (supply + 1)
      .ok ((⟨supply, s⟩, v) :: r.1, r.2)
    | .gtvar g => do
      let r ← normalizeTypeKeys rest supply
      .ok ((g, v) :: r.1, r.2)
    | _ => .error .TypeMismatch

/-- The IRModule constructor: the Python init normalizes both mappings (shown
above, from the source) and hands them to the native constructor, which is
modelled from the spec as bulk-loading every binding through the add path
with the strict no-overwrite flag (a construction-time collision is a
DuplicateDefinition). -/
def IRModule.ofDicts (funcs : List (MapKey × Func)) (tydefs : List (MapKey × TyValue))
    (supply : Nat) : Except ModError IRModule := do
  let fs ← normalizeFuncKeys funcs supply
  let ts ← normalizeTypeKeys tydefs fs.2
  let m0 : IRModule :=
    { functions := [], type_definitions := [], export_func := none, nextId := ts.2 }
  let m1 ← fs.1.foldlM (fun m p => m.add (.gvar p.1) (.func p.2) false) m0
  ts.1.foldlM (fun m p => m.add (.gtvar p.1) (.ty p.2) false) m1

/-- The dict branch of the update method, translated from the Python source:
a plain dict is first turned into an IRModule through the constructor and the
result is merged with Module_Update. -/
def IRModule.updateDict (m : IRModule) (d : List (MapKey × Func)) (supply : Nat) :
    Except ModError IRModule := do
  let other ← IRModule.ofDicts d [] supply
  Module_Update m other

/-- Wrapping rule of from_expr (spec section 4.4): a function-kind expression
is used as-is, a bare expression is wrapped in a nullary function whose body
is the expression. -/
def asFunc : RelayExpr → Func
  | .fn f => f
  | .bare b => .wrapperOf b

/-- Name of the conventional entry binding created by from_expr. -/
def mainName : String := "main"

/-- Modelled from the spec: the native Module_FromExpr — build a fresh module
pre-seeded with the caller-supplied functions and type definitions through
the add path (so the duplicate rules apply), insert the possibly wrapped
expression under the conventional entry name, and designate that binding as
the export function. -/
def Module_FromExpr (e : RelayExpr) (funcs : List (GlobalVar × Func))
    (defs : List (GlobalTypeVar × TyValue)) : Except ModError IRModule := do
  let m1 ← funcs.foldlM (fun m p => m.add (.gvar p.1) (.func p.2) false) IRModule.empty
  let m2 ← defs.foldlM (fun m p => m.add (.gtvar p.1) (.ty p.2) false) m1
  let m3 ← m2.add (.str mainName) (.func (asFunc e)) false
  let h ← Module_GetGlobalVar m3 mainName
  .ok { m3 with export_func := some h }

/-- Export designation query: the function bound to the designated entry
handle (spec section 4.3: the export must refer to a binding present in the
module). -/
def IRModule.getExport (m : IRModule) : Except ModError Func :=
  match m.export_func with
  | some h => Module_Lookup m h
  | none => .error .UndefinedSymbol

end MatxIR

namespace MatxText

/-- Constructor argument of a native object. -/
inductive NativeArg where
  | str (s : String)
  | bool (b : Bool)
  | int (n : Int)
deriving DecidableEq, Repr

/-- Identity of a native object: its registered type name and the ordered
constructor arguments passed to make_native_object. -/
structure NativeObjectSpec where
  typeName : String
  args : List NativeArg
deriving DecidableEq, Repr

/-- Black-box semantics of the native text library (spec section 6: the core
never inspects its internals): the two methods the wrappers dispatch to. -/
structure NativeTextLib where
  tokenize : NativeObjectSpec → List String → List String
  tokenizeWithMeta : NativeObjectSpec → List String → List String × List Int

/-- The WordPieceTokenizer wrapper, translated from the Python source: it
holds the native object built from the six constructor arguments in order. -/
structure WordPieceTokenizer where
  tokenizer : NativeObjectSpec
deriving DecidableEq, Repr

/-- Constructor of WordPieceTokenizer, translated from the Python source. -/
def WordPieceTokenizer.make (vocab_path : String) (lookup_id : Bool)
    (unk_token : NativeArg) ( subwords_prefix : String) (skip_empty : Bool)
    (max_bytes_per_token : Int) : WordPieceTokenizer :=
  ⟨{ typeName := "text_tokenizer_WordPieceTokenizer",
     args := [.str vocab_path, .bool lookup_id, unk_token,
              .str subwords_prefix, .bool skip_empty, .int max_bytes_per_token] }⟩

/-- The call operator of WordPieceTokenizer: dispatch to tokenize. -/
def WordPieceTokenizer.call (w : WordPieceTokenizer) (lib : NativeTextLib)
    (sentence : List String) : List String :=
  lib.tokenize w.tokenizer sentence

/-- The WordPieceTokenizerWithMeta wrapper, translated from the Python
source: it holds a native object built from the same six constructor
arguments in the same order. -/
structure WordPieceTokenizerWithMeta where
  tokenizer : NativeObjectSpec
deriving DecidableEq, Repr

/-- Constructor of WordPieceTokenizerWithMeta, translated from the Python
source. -/
def WordPieceTokenizerWithMeta.make (vocab_path : String) (lookup_id : Bool)
    (unk_token : NativeArg) ( subwords_prefix : String) (skip_empty : Bool)
    (max_bytes_per_token : Int) : WordPieceTokenizerWithMeta :=
  ⟨{ typeName := "text_tokenizer_WordPieceTokenizer",
     args := [.str vocab_path, .bool lookup_id, unk_token,
              .str subwords_prefix, .bool skip_empty, .int max_bytes_per_token] }⟩

/-- The call operator of WordPieceTokenizerWithMeta: dispatch to
tokenize_with_meta. -/
def WordPieceTokenizerWithMeta.call (w : WordPieceTokenizerWithMeta)
    (lib : NativeTextLib) (sentence : List String) : List String × List Int :=
  lib.tokenizeWithMeta w.tokenizer sentence

end MatxText

namespace MatxIR

lemma find?_map_rebind {α β : Type} (l : List (α × β)) (q c : α → Bool) (f : β) :
    (l.map (fun p => if c p.1 then (p.1, f) else p)).find? (fun p => q p.1)
      = (l.find? (fun p => q p.1)).map (fun p => if c p.1 then (p.1, f) else p) := by
  induction l with
  | nil => rfl
  | cons a tl ih =>
    by_cases hc : c a.1 <;> by_cases hq : q a.1 <;>
      simp [List.find?, hc, hq, ih]

lemma find?_rebind_gv (l : List (GlobalVar × Func)) (n s : String) (f : Func) :
    (l.map (fun q => if q.1.name == n then (q.1, f) else q)).find? (fun q => q.1.name == s)
      = (l.find? (fun q => q.1.name == s)).map
          (fun q => if q.1.name == n then (q.1, f) else q) := by
  induction l with
  | nil => rfl
  | cons a tl ih =>
    rw [List.map_cons]
    rcases hc : (a.1.name == n) with _ | _
    · have h1 : (if false = true then (a.1, f) else a) = a := rfl
      rw [h1]
      rcases hq : (a.1.name == s) with _ | _
      · have e1 : List.find? (fun q => q.1.name == s)
            (a :: List.map (fun q => if q.1.name == n then (q.1, f) else q) tl)
            = List.find? (fun q => q.1.name == s)
                (List.map (fun q => if q.1.name == n then (q.1, f) else q) tl) :=
          List.find?_cons_of_neg _ (by simp [hq])
        have e2 : List.find? (fun q => q.1.name == s) (a :: tl)
            = List.find? (fun q => q.1.name == s) tl :=
          List.find?_cons_of_neg _ (by simp [hq])
        rw [e1, e2, ih]
      · have e1 : List.find? (fun q => q.1.name == s)
            (a :: List.map (fun q => if q.1.name == n then (q.1, f) else q) tl)
            = some a := List.find?_cons_of_pos _ hq
        have e2 : List.find? (fun q => q.1.name == s) (a :: tl) = some a :=
          List.find?_cons_of_pos _ hq
        rw [e1, e2, Option.map_some']
        simp [hc]
    · have h1 : (if true = true then (a.1, f) else a) = (a.1, f) := rfl
      rw [h1]
      rcases hq : (a.1.name == s) with _ | _
      · have e1 : List.find? (fun q => q.1.name == s)
            ((a.1, f) :: List.map (fun q => if q.1.name == n then (q.1, f) else q) tl)
            = List.find? (fun q => q.1.name == s)
                (List.map (fun q => if q.1.name == n then (q.1, f) else q) tl) :=
          List.find?_cons_of_neg _ (by simp [hq])
        have e2 : List.find? (fun q => q.1.name == s) (a :: tl)
            = List.find? (fun q => q.1.name == s) tl :=
          List.find?_cons_of_neg _ (by simp [hq])
        rw [e1, e2, ih]
      · have e1 : List.find? (fun q => q.1.name == s)
            ((a.1, f) :: List.map (fun q => if q.1.name == n then (q.1, f) else q) tl)
            = some (a.1, f) := List.find?_cons_of_pos _ hq
        have e2 : List.find? (fun q => q.1.name == s) (a :: tl) = some a :=
          List.find?_cons_of_pos _ hq
        rw [e1, e2, Option.map_some']
        simp [hc]


lemma find?_rebind_gv_key (l : List (GlobalVar × Func)) (n : String) (f : Func)
    (g : GlobalVar) :
    (l.map (fun q => if q.1.name == n then (q.1, f) else q)).find? (fun q => q.1 == g)
      = (l.find? (fun q => q.1 == g)).map
          (fun q => if q.1.name == n then (q.1, f) else q) := by
  induction l with
  | nil => rfl
  | cons a tl ih =>
    rw [List.map_cons]
    rcases hc : (a.1.name == n) with _ | _
    · have h1 : (if false = true then (a.1, f) else a) = a := rfl
      rw [h1]
      rcases hq : (a.1 == g) with _ | _
      · have e1 : List.find? (fun q => q.1 == g)
            (a :: List.map (fun q => if q.1.name == n then (q.1, f) else q) tl)
            = List.find? (fun q => q.1 == g)
                (List.map (fun q => if q.1.name == n then (q.1, f) else q) tl) :=
          List.find?_cons_of_neg _ (by simp [hq])
        have e2 : List.find? (fun q => q.1 == g) (a :: tl)
            = List.find? (fun q => q.1 == g) tl :=
          List.find?_cons_of_neg _ (by simp [hq])
        rw [e1, e2, ih]
      · have e1 : List.find? (fun q => q.1 == g)
            (a :: List.map (fun q => if q.1.name == n then (q.1, f) else q) tl)
            = some a := List.find?_cons_of_pos _ hq
        have e2 : List.find? (fun q => q.1 == g) (a :: tl) = some a :=
          List.find?_cons_of_pos _ hq
        rw [e1, e2, Option.map_some']
        simp [hc]
    · have h1 : (if true = true then (a.1, f) else a) = (a.1, f) := rfl
      rw [h1]
      rcases hq : (a.1 == g) with _ | _
      · have e1 : List.find? (fun q => q.1 == g)
            ((a.1, f) :: List.map (fun q => if q.1.name == n then (q.1, f) else q) tl)
            = List.find? (fun q => q.1 == g)
                (List.map (fun q => if q.1.name == n then (q.1, f) else q) tl) :=
          List.find?_cons_of_neg _ (by simp [hq])
        have e2 : List.find? (fun q => q.1 == g) (a :: tl)
            = List.find? (fun q => q.1 == g) tl :=
          List.find?_cons_of_neg _ (by simp [hq])
        rw [e1, e2, ih]
      · have e1 : List.find? (fun q => q.1 == g)
            ((a.1, f) :: List.map (fun q => if q.1.name == n then (q.1, f) else q) tl)
            = some (a.1, f) := List.find?_cons_of_pos _ hq
        have e2 : List.find? (fun q => q.1 == g) (a :: tl) = some a :=
          List.find?_cons_of_pos _ hq
        rw [e1, e2, Option.map_some']
        simp [hc]


lemma find?_rebind_gty (l : List (GlobalTypeVar × TyValue)) (n s : String) (t : TyValue) :
    (l.map (fun q => if q.1.name == n then (q.1, t) else q)).find? (fun q => q.1.name == s)
      = (l.find? (fun q => q.1.name == s)).map
          (fun q => if q.1.name == n then (q.1, t) else q) := by
  induction l with
  | nil => rfl
  | cons a tl ih =>
    rw [List.map_cons]
    rcases hc : (a.1.name == n) with _ | _
    · have h1 : (if false = true then (a.1, t) else a) = a := rfl
      rw [h1]
      rcases hq : (a.1.name == s) with _ | _
      · have e1 : List.find? (fun q => q.1.name == s)
            (a :: List.map (fun q => if q.1.name == n then (q.1, t) else q) tl)
            = List.find? (fun q => q.1.name == s)
                (List.map (fun q => if q.1.name == n then (q.1, t) else q) tl) :=
          List.find?_cons_of_neg _ (by simp [hq])
        have e2 : List.find? (fun q => q.1.name == s) (a :: tl)
            = List.find? (fun q => q.1.name == s) tl :=
          List.find?_cons_of_neg _ (by simp [hq])
        rw [e1, e2, ih]
      · have e1 : List.find? (fun q => q.1.name == s)
            (a :: List.map (fun q => if q.1.name == n then (q.1, t) else q) tl)
            = some a := List.find?_cons_of_pos _ hq
        have e2 : List.find? (fun q => q.1.name == s) (a :: tl) = some a :=
          List.find?_cons_of_pos _ hq
        rw [e1, e2, Option.map_some']
        simp [hc]
    · have h1 : (if true = true then (a.1, t) else a) = (a.1, t) := rfl
      rw [h1]
      rcases hq : (a.1.name == s) with _ | _
      · have e1 : List.find? (fun q => q.1.name == s)
            ((a.1, t) :: List.map (fun q => if q.1.name == n then (q.1, t) else q) tl)
            = List.find? (fun q => q.1.name == s)
                (List.map (fun q => if q.1.name == n then (q.1, t) else q) tl) :=
          List.find?_cons_of_neg _ (by simp [hq])
        have e2 : List.find? (fun q => q.1.name == s) (a :: tl)
            = List.find? (fun q => q.1.name == s) tl :=
          List.find?_cons_of_neg _ (by simp [hq])
        rw [e1, e2, ih]
      · have e1 : List.find? (fun q => q.1.name == s)
            ((a.1, t) :: List.map (fun q => if q.1.name == n then (q.1, t) else q) tl)
            = some (a.1, t) := List.find?_cons_of_pos _ hq
        have e2 : List.find? (fun q => q.1.name == s) (a :: tl) = some a :=
          List.find?_cons_of_pos _ hq
        rw [e1, e2, Option.map_some']
        simp [hc]


lemma find?_rebind_gty_key (l : List (GlobalTypeVar × TyValue)) (n : String) (t : TyValue)
    (g : GlobalTypeVar) :
    (l.map (fun q => if q.1.name == n then (q.1, t) else q)).find? (fun q => q.1 == g)
      = (l.find? (fun q => q.1 == g)).map
          (fun q => if q.1.name == n then (q.1, t) else q) := by
  induction l with
  | nil => rfl
  | cons a tl ih =>
    rw [List.map_cons]
    rcases hc : (a.1.name == n) with _ | _
    · have h1 : (if false = true then (a.1, t) else a) = a := rfl
      rw [h1]
      rcases hq : (a.1 == g) with _ | _
      · have e1 : List.find? (fun q => q.1 == g)
            (a :: List.map (fun q => if q.1.name == n then (q.1, t) else q) tl)
            = List.find? (fun q => q.1 == g)
                (List.map (fun q => if q.1.name == n then (q.1, t) else q) tl) :=
          List.find?_cons_of_neg _ (by simp [hq])
        have e2 : List.find? (fun q => q.1 == g) (a :: tl)
            = List.find? (fun q => q.1 == g) tl :=
          List.find?_cons_of_neg _ (by simp [hq])
        rw [e1, e2, ih]
      · have e1 : List.find? (fun q => q.1 == g)
            (a :: List.map (fun q => if q.1.name == n then (q.1, t) else q) tl)
            = some a := List.find?_cons_of_pos _ hq
        have e2 : List.find? (fun q => q.1 == g) (a :: tl) = some a :=
          List.find?_cons_of_pos _ hq
        rw [e1, e2, Option.map_some']
        simp [hc]
    · have h1 : (if true = true then (a.1, t) else a) = (a.1, t) := rfl
      rw [h1]
      rcases hq : (a.1 == g) with _ | _
      · have e1 : List.find? (fun q => q.1 == g)
            ((a.1, t) :: List.map (fun q => if q.1.name == n then (q.1, t) else q) tl)
            = List.find? (fun q => q.1 == g)
                (List.map (fun q => if q.1.name == n then (q.1, t) else q) tl) :=
          List.find?_cons_of_neg _ (by simp [hq])
        have e2 : List.find? (fun q => q.1 == g) (a :: tl)
            = List.find? (fun q => q.1 == g) tl :=
          List.find?_cons_of_neg _ (by simp [hq])
        rw [e1, e2, ih]
      · have e1 : List.find? (fun q => q.1 == g)
            ((a.1, t) :: List.map (fun q => if q.1.name == n then (q.1, t) else q) tl)
            = some (a.1, t) := List.find?_cons_of_pos _ hq
        have e2 : List.find? (fun q => q.1 == g) (a :: tl) = some a :=
          List.find?_cons_of_pos _ hq
        rw [e1, e2, Option.map_some']
        simp [hc]


lemma find?_fst_pred {α β : Type} {l : List (α × β)} {q : α → Bool} {p : α × β}
    (h : l.find? (fun r => q r.1) = some p) : q p.1 = true := by
  have h2 := List.find?_some h
  simpa using h2

lemma find?_append_of_none {α : Type} {l : List α} {q : α → Bool} (x : α)
    (h : l.find? q = none) : (l ++ [x]).find? q = if q x then some x else none := by
  by_cases hx : q x <;> simp [List.find?_append, h, List.find?, hx]

lemma gvar_name_of_find? {l : List (GlobalVar × Func)} {s : String} {p : GlobalVar × Func}
    (h : l.find? (fun q => q.1.name == s) = some p) : p.1.name = s := by
  have h2 := List.find?_some h
  simpa using h2

lemma gtvar_name_of_find? {l : List (GlobalTypeVar × TyValue)} {s : String}
    {p : GlobalTypeVar × TyValue}
    (h : l.find? (fun q => q.1.name == s) = some p) : p.1.name = s := by
  have h2 := List.find?_some h
  simpa using h2

lemma add_str_func_found (m : IRModule) (s : String) (f : Func) (u : Bool)
    (p : GlobalVar × Func)
    (hp : m.functions.find? (fun q => q.1.name == s) = some p) :
    m.add (.str s) (.func f) u = Module_Add m p.1 f u := by
  simp [IRModule.add, IRModule.getOrCreateGlobalVar, hp]

lemma add_str_func_notfound (m : IRModule) (s : String) (f : Func) (u : Bool)
    (hp : m.functions.find? (fun q => q.1.name == s) = none) :
    m.add (.str s) (.func f) u =
      .ok { m with nextId := m.nextId + 1,
                   functions := m.functions ++ [(⟨m.nextId, s⟩, f)] } := by
  simp [IRModule.add, IRModule.getOrCreateGlobalVar, hp, Module_Add]

lemma Module_Add_found_true (m : IRModule) (v : GlobalVar) (f : Func)
    (p : GlobalVar × Func)
    (hp : m.functions.find? (fun q => q.1.name == v.name) = some p) :
    Module_Add m v f true =
      .ok { m with functions :=
        m.functions.map (fun q => if q.1.name == v.name then (q.1, f) else q) } := by
  simp [Module_Add, hp]

lemma Module_Add_found_false (m : IRModule) (v : GlobalVar) (f : Func)
    (p : GlobalVar × Func)
    (hp : m.functions.find? (fun q => q.1.name == v.name) = some p) :
    Module_Add m v f false = .error .DuplicateDefinition := by
  simp [Module_Add, hp]

lemma Module_Add_notfound (m : IRModule) (v : GlobalVar) (f : Func) (u : Bool)
    (hp : m.functions.find? (fun q => q.1.name == v.name) = none) :
    Module_Add m v f u = .ok { m with functions := m.functions ++ [(v, f)] } := by
  simp [Module_Add, hp]

lemma addDef_str_rewrite (m : IRModule) (s : String) (t : TyValue) (u : Bool) :
    m.add (.str s) (.ty t) u =
      Module_AddDef { m with nextId := m.nextId + 1 } ⟨m.nextId, s⟩ t u := rfl

lemma Module_AddDef_found_true (m : IRModule) (v : GlobalTypeVar) (t : TyValue)
    (p : GlobalTypeVar × TyValue)
    (hp : m.type_definitions.find? (fun q => q.1.name == v.name) = some p) :
    Module_AddDef m v t true =
      .ok { m with type_definitions :=
        m.type_definitions.map (fun q => if q.1.name == v.name then (q.1, t) else q) } := by
  simp [Module_AddDef, hp]

lemma Module_AddDef_found_false (m : IRModule) (v : GlobalTypeVar) (t : TyValue)
    (p : GlobalTypeVar × TyValue)
    (hp : m.type_definitions.find? (fun q => q.1.name == v.name) = some p) :
    Module_AddDef m v t false = .error .DuplicateDefinition := by
  simp [Module_AddDef, hp]

lemma Module_AddDef_notfound (m : IRModule) (v : GlobalTypeVar) (t : TyValue) (u : Bool)
    (hp : m.type_definitions.find? (fun q => q.1.name == v.name) = none) :
    Module_AddDef m v t u =
      .ok { m with type_definitions := m.type_definitions ++ [(v, t)] } := by
  simp [Module_AddDef, hp]

end MatxIR

namespace MatxIR

lemma find?_key_of_find?_name {α β : Type} [BEq α] [LawfulBEq α] (nm : α → String)
    (l : List (α × β)) (n : String) (p : α × β)
    (hp : l.find? (fun r => nm r.1 == n) = some p) :
    l.find? (fun r => r.1 == p.1) = some p := by
  induction l with
  | nil => simp at hp
  | cons a tl ih =>
    rcases ha : (nm a.1 == n) with _ | _
    · have hp2 : tl.find? (fun r => nm r.1 == n) = some p := by
        simpa [List.find?, ha] using hp
      have hpn : nm p.1 = n := by
        have h2 := List.find?_some hp2
        simpa using h2
      have hak : (a.1 == p.1) = false := by
        rcases hk : (a.1 == p.1) with _ | _
        · rfl
        · exfalso
          have : a.1 = p.1 := eq_of_beq hk
          rw [this, hpn] at ha
          simp at ha
      simp [List.find?, hak, ih hp2]
    · have hpa : a = p := by simpa [List.find?, ha] using hp
      subst hpa
      simp [List.find?]

lemma find?_key_none_of_name_none {α β : Type} [BEq α] [LawfulBEq α] (nm : α → String)
    (l : List (α × β)) (n : String) (g : α) (hg : nm g = n)
    (h : l.find? (fun r => nm r.1 == n) = none) :
    l.find? (fun r => r.1 == g) = none := by
  rw [List.find?_eq_none] at h ⊢
  intro x hx hk
  have hxg : x.1 = g := by simpa using hk
  have := h x hx
  rw [hxg, hg] at this
  simp at this

lemma add_str_func_found_ok (m : IRModule) (n : String) (f : Func) (u : Bool)
    (m' : IRModule) (p : GlobalVar × Func)
    (hp : m.functions.find? (fun q => q.1.name == n) = some p)
    (h : m.add (.str n) (.func f) u = .ok m') :
    u = true ∧
      m' = { m with functions :=
        m.functions.map (fun q => if q.1.name == n then (q.1, f) else q) } := by
  have hname : p.1.name = n := gvar_name_of_find? hp
  have hrw := add_str_func_found m n f u p hp
  rw [hrw] at h
  have hp' : m.functions.find? (fun q => q.1.name == p.1.name) = some p := by
    rw [hname]; exact hp
  cases u with
  | false =>
    rw [Module_Add_found_false m p.1 f p hp'] at h
    exact absurd h (by simp)
  | true =>
    rw [Module_Add_found_true m p.1 f p hp'] at h
    refine ⟨rfl, ?_⟩
    have h2 := h
    injection h2 with h3
    rw [← h3, hname]

lemma add_str_func_notfound_ok (m : IRModule) (n : String) (f : Func) (u : Bool)
    (m' : IRModule)
    (hp : m.functions.find? (fun q => q.1.name == n) = none)
    (h : m.add (.str n) (.func f) u = .ok m') :
    m' = { m with nextId := m.nextId + 1,
                  functions := m.functions ++ [(⟨m.nextId, n⟩, f)] } := by
  rw [add_str_func_notfound m n f u hp] at h
  injection h with h2
  exact h2.symm

lemma add_str_ty_found_ok (m : IRModule) (n : String) (t : TyValue) (u : Bool)
    (m' : IRModule) (p : GlobalTypeVar × TyValue)
    (hp : m.type_definitions.find? (fun q => q.1.name == n) = some p)
    (h : m.add (.str n) (.ty t) u = .ok m') :
    u = true ∧
      m' = { m with nextId := m.nextId + 1,
                    type_definitions :=
        m.type_definitions.map (fun q => if q.1.name == n then (q.1, t) else q) } := by
  have hname : p.1.name = n := gtvar_name_of_find? hp
  rw [addDef_str_rewrite] at h
  have hp' : ({ m with nextId := m.nextId + 1 } : IRModule).type_definitions.find?
      (fun q => q.1.name == (⟨m.nextId, n⟩ : GlobalTypeVar).name) = some p := hp
  cases u with
  | false =>
    rw [Module_AddDef_found_false _ _ t p hp'] at h
    exact absurd h (by simp)
  | true =>
    rw [Module_AddDef_found_true _ _ t p hp'] at h
    refine ⟨rfl, ?_⟩
    injection h with h3
    exact h3.symm

lemma add_str_ty_notfound_ok (m : IRModule) (n : String) (t : TyValue) (u : Bool)
    (m' : IRModule)
    (hp : m.type_definitions.find? (fun q => q.1.name == n) = none)
    (h : m.add (.str n) (.ty t) u = .ok m') :
    m' = { m with nextId := m.nextId + 1,
                  type_definitions := m.type_definitions ++ [(⟨m.nextId, n⟩, t)] } := by
  rw [addDef_str_rewrite] at h
  have hp' : ({ m with nextId := m.nextId + 1 } : IRModule).type_definitions.find?
      (fun q => q.1.name == (⟨m.nextId, n⟩ : GlobalTypeVar).name) = none := hp
  rw [Module_AddDef_notfound _ _ t u hp'] at h
  injection h with h2
  exact h2.symm

end MatxIR

namespace MatxIR

lemma lookup_str_after_add_true (m : IRModule) (n : String) (f : Func) (m' : IRModule)
    (h : m.add (.str n) (.func f) true = .ok m') :
    Module_Lookup_str m' n = .ok f := by
  rcases hp : m.functions.find? (fun q => q.1.name == n) with _ | p
  · have hm := add_str_func_notfound_ok m n f true m' hp h
    subst hm
    simp only [Module_Lookup_str]
    rw [find?_append_of_none _ hp]
    simp
  · obtain ⟨-, hm⟩ := add_str_func_found_ok m n f true m' p hp h
    subst hm
    simp only [Module_Lookup_str]
    rw [find?_rebind_gv, hp]
    simp [gvar_name_of_find? hp]

lemma getGlobalVar_preserved_of_found (m : IRModule) (n : String) (f : Func) (u : Bool)
    (m' : IRModule) (p : GlobalVar × Func)
    (hp : m.functions.find? (fun q => q.1.name == n) = some p)
    (h : m.add (.str n) (.func f) u = .ok m') :
    ∀ s, Module_GetGlobalVar m' s = Module_GetGlobalVar m s := by
  obtain ⟨-, hm⟩ := add_str_func_found_ok m n f u m' p hp h
  subst hm
  intro s
  simp only [Module_GetGlobalVar]
  rw [find?_rebind_gv]
  rcases hs : m.functions.find? (fun q => q.1.name == s) with _ | x
  · rw [hs]
    rfl
  · rw [hs, Option.map_some']
    rcases hx : (x.1.name == n) with _ | _ <;> simp [hx]

lemma getGlobalVar_of_notfound (m : IRModule) (n : String) (f : Func) (u : Bool)
    (m' : IRModule)
    (hp : m.functions.find? (fun q => q.1.name == n) = none)
    (h : m.add (.str n) (.func f) u = .ok m') :
    Module_GetGlobalVar m' n = .ok ⟨m.nextId, n⟩ := by
  have hm := add_str_func_notfound_ok m n f u m' hp h
  subst hm
  simp only [Module_GetGlobalVar]
  rw [find?_append_of_none _ hp]
  simp

lemma add_str_func_registers (m : IRModule) (n : String) (f : Func) (u : Bool)
    (m' : IRModule) (h : m.add (.str n) (.func f) u = .ok m') :
    ∃ hv, Module_GetGlobalVar m' n = .ok hv := by
  rcases hp : m.functions.find? (fun q => q.1.name == n) with _ | p
  · exact ⟨⟨m.nextId, n⟩, getGlobalVar_of_notfound m n f u m' hp h⟩
  · refine ⟨p.1, ?_⟩
    rw [getGlobalVar_preserved_of_found m n f u m' p hp h n]
    simp [Module_GetGlobalVar, hp]

lemma getGlobalVar_stable_add (m : IRModule) (n : String) (f : Func) (u : Bool)
    (m' : IRModule) (hv : GlobalVar)
    (h1 : Module_GetGlobalVar m n = .ok hv)
    (h : m.add (.str n) (.func f) u = .ok m') :
    Module_GetGlobalVar m' n = .ok hv := by
  rcases hp : m.functions.find? (fun q => q.1.name == n) with _ | p
  · simp [Module_GetGlobalVar, hp] at h1
  · rw [getGlobalVar_preserved_of_found m n f u m' p hp h n]
    exact h1

lemma getGlobalTypeVar_preserved_of_found (m : IRModule) (n : String) (t : TyValue)
    (u : Bool) (m' : IRModule) (p : GlobalTypeVar × TyValue)
    (hp : m.type_definitions.find? (fun q => q.1.name == n) = some p)
    (h : m.add (.str n) (.ty t) u = .ok m') :
    ∀ s, Module_GetGlobalTypeVar m' s = Module_GetGlobalTypeVar m s := by
  obtain ⟨-, hm⟩ := add_str_ty_found_ok m n t u m' p hp h
  subst hm
  intro s
  simp only [Module_GetGlobalTypeVar]
  rw [find?_rebind_gty]
  rcases hs : m.type_definitions.find? (fun q => q.1.name == s) with _ | x
  · rw [hs]
    rfl
  · rw [hs, Option.map_some']
    rcases hx : (x.1.name == n) with _ | _ <;> simp [hx]

lemma getGlobalTypeVar_of_notfound (m : IRModule) (n : String) (t : TyValue) (u : Bool)
    (m' : IRModule)
    (hp : m.type_definitions.find? (fun q => q.1.name == n) = none)
    (h : m.add (.str n) (.ty t) u = .ok m') :
    Module_GetGlobalTypeVar m' n = .ok ⟨m.nextId, n⟩ := by
  have hm := add_str_ty_notfound_ok m n t u m' hp h
  subst hm
  simp only [Module_GetGlobalTypeVar]
  rw [find?_append_of_none _ hp]
  simp

lemma add_str_ty_registers (m : IRModule) (n : String) (t : TyValue) (u : Bool)
    (m' : IRModule) (h : m.add (.str n) (.ty t) u = .ok m') :
    ∃ g, Module_GetGlobalTypeVar m' n = .ok g := by
  rcases hp : m.type_definitions.find? (fun q => q.1.name == n) with _ | p
  · exact ⟨⟨m.nextId, n⟩, getGlobalTypeVar_of_notfound m n t u m' hp h⟩
  · refine ⟨p.1, ?_⟩
    rw [getGlobalTypeVar_preserved_of_found m n t u m' p hp h n]
    simp [Module_GetGlobalTypeVar, hp]

lemma getGlobalTypeVar_stable_add (m : IRModule) (n : String) (t : TyValue) (u : Bool)
    (m' : IRModule) (g : GlobalTypeVar)
    (h1 : Module_GetGlobalTypeVar m n = .ok g)
    (h : m.add (.str n) (.ty t) u = .ok m') :
    Module_GetGlobalTypeVar m' n = .ok g := by
  rcases hp : m.type_definitions.find? (fun q => q.1.name == n) with _ | p
  · simp [Module_GetGlobalTypeVar, hp] at h1
  · rw [getGlobalTypeVar_preserved_of_found m n t u m' p hp h n]
    exact h1

lemma lookupDef_after_add_ty_true (m : IRModule) (n : String) (t : TyValue)
    (m' : IRModule) (h : m.add (.str n) (.ty t) true = .ok m') :
    ∃ g, Module_GetGlobalTypeVar m' n = .ok g ∧ Module_LookupDef m' g = .ok t ∧
      m'.functions = m.functions := by
  rcases hp : m.type_definitions.find? (fun q => q.1.name == n) with _ | p
  · refine ⟨⟨m.nextId, n⟩, getGlobalTypeVar_of_notfound m n t true m' hp h, ?_, ?_⟩
    · have hm := add_str_ty_notfound_ok m n t true m' hp h
      subst hm
      simp only [Module_LookupDef]
      have hkey : m.type_definitions.find?
          (fun r => r.1 == (⟨m.nextId, n⟩ : GlobalTypeVar)) = none :=
        find?_key_none_of_name_none GlobalTypeVar.name m.type_definitions n
          ⟨m.nextId, n⟩ rfl hp
      rw [find?_append_of_none _ hkey]
      simp
    · have hm := add_str_ty_notfound_ok m n t true m' hp h
      subst hm
      rfl
  · obtain ⟨-, hm⟩ := add_str_ty_found_ok m n t true m' p hp h
    refine ⟨p.1, ?_, ?_, ?_⟩
    · rw [getGlobalTypeVar_preserved_of_found m n t true m' p hp h n]
      simp [Module_GetGlobalTypeVar, hp]
    · subst hm
      have hkey := find?_key_of_find?_name GlobalTypeVar.name m.type_definitions n p hp
      simp only [Module_LookupDef]
      rw [find?_rebind_gty_key, hkey]
      simp [gtvar_name_of_find? hp]
    · subst hm
      rfl

end MatxIR

namespace MatxIR

lemma find?_none_of_contain_false (m : IRModule) (n : String)
    (hf : Module_ContainGlobalVar m n = false) :
    m.functions.find? (fun q => q.1.name == n) = none := by
  have hf2 := hf
  simp only [Module_ContainGlobalVar] at hf2
  rcases hx : m.functions.find? (fun q => q.1.name == n) with _ | x
  · exact hx
  · rw [hx] at hf2
    simp at hf2

lemma add_str_func_true_ok (m : IRModule) (n : String) (fv : Func) :
    ∃ m1, m.add (.str n) (.func fv) true = .ok m1 := by
  rcases hp : m.functions.find? (fun q => q.1.name == n) with _ | p
  · exact ⟨_, add_str_func_notfound m n fv true hp⟩
  · rw [add_str_func_found m n fv true p hp]
    have hp' : m.functions.find? (fun q => q.1.name == p.1.name) = some p := by
      rw [gvar_name_of_find? hp]
      exact hp
    exact ⟨_, Module_Add_found_true m p.1 fv p hp'⟩

lemma add_str_ty_true_ok (m : IRModule) (n : String) (tv : TyValue) :
    ∃ m2, m.add (.str n) (.ty tv) true = .ok m2 := by
  rw [addDef_str_rewrite]
  rcases hp : m.type_definitions.find? (fun q => q.1.name == n) with _ | p
  · exact ⟨_, Module_AddDef_notfound _ _ tv true hp⟩
  · exact ⟨_, Module_AddDef_found_true _ _ tv p hp⟩

lemma getGlobalVar_ok_name (ma : IRModule) (s : String) (h : GlobalVar)
    (hh : Module_GetGlobalVar ma s = .ok h) : h.name = s := by
  rcases hx : ma.functions.find? (fun q => q.1.name == s) with _ | p
  · simp [Module_GetGlobalVar, hx] at hh
  · have hn := gvar_name_of_find? hx
    simp [Module_GetGlobalVar, hx] at hh
    rw [← hh]
    exact hn

lemma getGlobalTypeVar_ok_name (ma : IRModule) (s : String) (g : GlobalTypeVar)
    (hh : Module_GetGlobalTypeVar ma s = .ok g) : g.name = s := by
  rcases hx : ma.type_definitions.find? (fun q => q.1.name == s) with _ | p
  · simp [Module_GetGlobalTypeVar, hx] at hh
  · have hn := gtvar_name_of_find? hx
    simp [Module_GetGlobalTypeVar, hx] at hh
    rw [← hh]
    exact hn

lemma Module_Add_true_gvar_lookup (m : IRModule) (v : GlobalVar) (f : Func)
    (m' : IRModule) (h : Module_Add m v f true = .ok m') :
    Module_Lookup_str m' v.name = .ok f := by
  rcases hp : m.functions.find? (fun q => q.1.name == v.name) with _ | p
  · rw [Module_Add_notfound m v f true hp] at h
    injection h with h2
    subst h2
    simp only [Module_Lookup_str]
    rw [find?_append_of_none _ hp]
    simp
  · rw [Module_Add_found_true m v f p hp] at h
    injection h with h2
    subst h2
    simp only [Module_Lookup_str]
    rw [find?_rebind_gv, hp, Option.map_some']
    simp [gvar_name_of_find? hp]

lemma Module_Add_true_getVar_found (m : IRModule) (v : GlobalVar) (f : Func)
    (m' : IRModule) (p : GlobalVar × Func)
    (hp : m.functions.find? (fun q => q.1.name == v.name) = some p)
    (h : Module_Add m v f true = .ok m') :
    ∀ s, Module_GetGlobalVar m' s = Module_GetGlobalVar m s := by
  rw [Module_Add_found_true m v f p hp] at h
  injection h with h2
  subst h2
  intro s
  simp only [Module_GetGlobalVar]
  rw [find?_rebind_gv]
  rcases hs : m.functions.find? (fun q => q.1.name == s) with _ | x
  · rw [hs]
    rfl
  · rw [hs, Option.map_some']
    rcases hx : (x.1.name == v.name) with _ | _ <;> simp [hx]

lemma Module_Add_true_getVar_notfound (m : IRModule) (v : GlobalVar) (f : Func)
    (m' : IRModule)
    (hp : m.functions.find? (fun q => q.1.name == v.name) = none)
    (h : Module_Add m v f true = .ok m') :
    Module_GetGlobalVar m' v.name = .ok v := by
  rw [Module_Add_notfound m v f true hp] at h
  injection h with h2
  subst h2
  simp only [Module_GetGlobalVar]
  rw [find?_append_of_none _ hp]
  simp

lemma except_bind_ok {α β : Type} (a : α) (f : α → Except ModError β) :
    (Except.ok a >>= f) = f a := rfl

lemma except_bind_err {α β : Type} (e : ModError) (f : α → Except ModError β) :
    ((Except.error e : Except ModError α) >>= f) = .error e := rfl

lemma Module_Update_single (m X : IRModule) (v : GlobalVar) (f : Func)
    (hX : X.functions = [(v, f)]) (hXt : X.type_definitions = []) :
    Module_Update m X = Module_Add m v f true := by
  simp only [Module_Update, hX, hXt, IRModule.add]
  rcases hres : Module_Add m v f true with e | M <;>
    simp [hres, List.foldlM_cons, List.foldlM_nil, except_bind_ok, except_bind_err]

lemma find?_some_of_contain_true (m : IRModule) (n : String)
    (hf : Module_ContainGlobalVar m n = true) :
    ∃ p, m.functions.find? (fun q => q.1.name == n) = some p := by
  rcases hx : m.functions.find? (fun q => q.1.name == n) with _ | p
  · simp [Module_ContainGlobalVar, hx] at hf
  · exact ⟨p, hx⟩

end MatxIR

open MatxIR MatxText

/-- C3: merge semantics — for modules A = \x7bf: body1\x7d and
B = \x7bf: body2, g: body3\x7d, merging B into A through the update method
replays every binding of B through add with update true, so A ends with f
bound to body2 (keeping A's handle for f) and g bound to body3, while B is
unchanged (the embedding is pure: Module_Update builds a new module and never
touches its second argument, mirroring that the Python mutation only targets
the receiver). -/
theorem merge_last_writer_wins (b1 b2 b3 : Func) :
    Module_Update
      { functions := [(⟨0, "f"⟩, b1)], type_definitions := [],
        export_func := none, nextId := 1 }
      { functions := [(⟨10, "f"⟩, b2), (⟨11, "g"⟩, b3)], type_definitions := [],
        export_func := none, nextId := 12 }
      = .ok { functions := [(⟨0, "f"⟩, b2), (⟨11, "g"⟩, b3)], type_definitions := [],
              export_func := none, nextId := 1 }
    ∧ ({ functions := [(⟨10, "f"⟩, b2), (⟨11, "g"⟩, b3)], type_definitions := [],
         export_func := none, nextId := 12 } : IRModule).functions
        = [(⟨10, "f"⟩, b2), (⟨11, "g"⟩, b3)] :=
  ⟨rfl, rfl⟩

/-- C4: strict read-path lookups do not create — on a name never registered
in the corresponding namespace, get_global_var, get_global_type_var and the
string path of getitem all fail with UndefinedSymbol; all three are pure
queries that return only a result and no module, so no handle can be minted
as a side effect. -/
theorem strict_lookup_undefined (m : IRModule) (n : String)
    (hf : Module_ContainGlobalVar m n = false)
    (ht : m.type_definitions.find? (fun q => q.1.name == n) = none) :
    Module_GetGlobalVar m n = .error .UndefinedSymbol
    ∧ Module_GetGlobalTypeVar m n = .error .UndefinedSymbol
    ∧ m.getItem (.str n) = .error .UndefinedSymbol := by
  have hf2 := hf
  simp only [Module_ContainGlobalVar] at hf2
  have hfn : m.functions.find? (fun q => q.1.name == n) = none := by
    rcases hx : m.functions.find? (fun q => q.1.name == n) with _ | x
    · exact hx
    · rw [hx] at hf2
      simp at hf2
  refine ⟨?_, ?_, ?_⟩
  · simp [Module_GetGlobalVar, hfn]
  · simp [Module_GetGlobalTypeVar, ht]
  · simp [IRModule.getItem, Module_Lookup_str, hfn, Except.map]

/-- Witness for C4 at the empty module and the name missing. -/
theorem strict_lookup_undefined_witness :
    Module_GetGlobalVar IRModule.empty "missing" = .error .UndefinedSymbol
    ∧ Module_GetGlobalTypeVar IRModule.empty "missing" = .error .UndefinedSymbol
    ∧ IRModule.empty.getItem (.str "missing") = .error .UndefinedSymbol :=
  strict_lookup_undefined IRModule.empty "missing" rfl rfl

/-- C10: the two tokenizer wrappers built from the same six arguments hold
the identical native object (same registered type name, same ordered
constructor arguments); their call operators dispatch to tokenize and
tokenize_with_meta of that same object, so whenever the native library's
tokenize_with_meta agrees with tokenize on its token component (the native
engine is a black box, so that agreement is a hypothesis about it), the
token sequence of the with-meta wrapper equals the plain wrapper's output on
every sentence. -/
theorem tokenizer_wrappers_share_native (vocab_path : String) (lookup_id : Bool)
    (unk_token : NativeArg) ( subwords_prefix : String) (skip_empty : Bool)
    (max_bytes_per_token : Int) (lib : NativeTextLib) (sentence : List String)
    (hmeta : ∀ obj s, (lib.tokenizeWithMeta obj s).1 = lib.tokenize obj s) :
    (WordPieceTokenizerWithMeta.make vocab_path lookup_id unk_token
        subwords_prefix skip_empty max_bytes_per_token).tokenizer
      = (WordPieceTokenizer.make vocab_path lookup_id unk_token
          subwords_prefix skip_empty max_bytes_per_token).tokenizer
    ∧ (WordPieceTokenizer.make vocab_path lookup_id unk_token
          subwords_prefix skip_empty max_bytes_per_token).call lib sentence
      = lib.tokenize (WordPieceTokenizer.make vocab_path lookup_id unk_token
          subwords_prefix skip_empty max_bytes_per_token).tokenizer sentence
    ∧ (WordPieceTokenizerWithMeta.make vocab_path lookup_id unk_token
          subwords_prefix skip_empty max_bytes_per_token).call lib sentence
      = lib.tokenizeWithMeta (WordPieceTokenizer.make vocab_path lookup_id unk_token
          subwords_prefix skip_empty max_bytes_per_token).tokenizer sentence
    ∧ ((WordPieceTokenizerWithMeta.make vocab_path lookup_id unk_token
          subwords_prefix skip_empty max_bytes_per_token).call lib sentence).1
      = (WordPieceTokenizer.make vocab_path lookup_id unk_token
          subwords_prefix skip_empty max_bytes_per_token).call lib sentence := by
  refine ⟨rfl, rfl, rfl, ?_⟩
  exact hmeta _ _

/-- Witness for C10 with concrete arguments and a concrete native library
whose with-meta token component agrees with tokenize. -/
theorem tokenizer_wrappers_share_native_witness :
    (WordPieceTokenizerWithMeta.make "vocab.txt" true (.str "[UNK]") "##" true
        100).tokenizer
      = (WordPieceTokenizer.make "vocab.txt" true (.str "[UNK]") "##" true
          100).tokenizer
    ∧ (WordPieceTokenizer.make "vocab.txt" true (.str "[UNK]") "##" true
          100).call ⟨fun _ s => s, fun _ s => (s, [])⟩ ["hello"]
      = NativeTextLib.tokenize ⟨fun _ s => s, fun _ s => (s, [])⟩
          (WordPieceTokenizer.make "vocab.txt" true (.str "[UNK]") "##" true
            100).tokenizer ["hello"]
    ∧ (WordPieceTokenizerWithMeta.make "vocab.txt" true (.str "[UNK]") "##" true
          100).call ⟨fun _ s => s, fun _ s => (s, [])⟩ ["hello"]
      = NativeTextLib.tokenizeWithMeta ⟨fun _ s => s, fun _ s => (s, [])⟩
          (WordPieceTokenizer.make "vocab.txt" true (.str "[UNK]") "##" true
            100).tokenizer ["hello"]
    ∧ ((WordPieceTokenizerWithMeta.make "vocab.txt" true (.str "[UNK]") "##" true
          100).call ⟨fun _ s => s, fun _ s => (s, [])⟩ ["hello"]).1
      = (WordPieceTokenizer.make "vocab.txt" true (.str "[UNK]") "##" true
          100).call ⟨fun _ s => s, fun _ s => (s, [])⟩ ["hello"] :=
  tokenizer_wrappers_share_native "vocab.txt" true (.str "[UNK]") "##" true 100
    ⟨fun _ s => s, fun _ s => (s, [])⟩ ["hello"] (fun _ _ => rfl)

/-- C2: insert/update contract with per-call atomicity — on a fresh name,
add with update false succeeds; repeating the same insertion with update
false fails with DuplicateDefinition and the binding reached by the failed
call is unchanged (the failed call returns only the error, so the module in
use afterwards is still m1, whose binding for n is still f1); repeating with
update true succeeds and replaces the bound value, while get_global_var
returns the same handle before and after. -/
theorem insert_update_contract (m : IRModule) (n : String) (f1 f2 : Func)
    (hfresh : Module_ContainGlobalVar m n = false) :
    ∃ m1 m2,
      m.add (.str n) (.func f1) false = .ok m1
      ∧ m1.add (.str n) (.func f1) false = .error .DuplicateDefinition
      ∧ Module_Lookup_str m1 n = .ok f1
      ∧ m1.add (.str n) (.func f2) true = .ok m2
      ∧ Module_Lookup_str m2 n = .ok f2
      ∧ ∃ h, Module_GetGlobalVar m1 n = .ok h ∧ Module_GetGlobalVar m2 n = .ok h := by
  have hfn := find?_none_of_contain_false m n hfresh
  have h1 := add_str_func_notfound m n f1 false hfn
  have hm1find : (m.functions ++ [((⟨m.nextId, n⟩ : GlobalVar), f1)]).find?
      (fun q => q.1.name == n) = some (⟨m.nextId, n⟩, f1) := by
    rw [find?_append_of_none _ hfn]
    simp
  obtain ⟨m2, hupd⟩ := add_str_func_true_ok
      { m with nextId := m.nextId + 1,
               functions := m.functions ++ [((⟨m.nextId, n⟩ : GlobalVar), f1)] } n f2
  refine ⟨_, m2, h1, ?_, ?_, hupd, ?_, ?_⟩
  · rw [add_str_func_found _ n f1 false _ hm1find]
    exact Module_Add_found_false _ _ f1 _ hm1find
  · simp [Module_Lookup_str, hm1find]
  · exact lookup_str_after_add_true _ n f2 m2 hupd
  · refine ⟨⟨m.nextId, n⟩, ?_, ?_⟩
    · simp [Module_GetGlobalVar, hm1find]
    · exact getGlobalVar_stable_add _ n f2 true m2 ⟨m.nextId, n⟩
        (by simp [Module_GetGlobalVar, hm1find]) hupd

/-- Witness for C2 at the empty module with name f and two distinct bodies. -/
theorem insert_update_contract_witness :
    ∃ m1 m2,
      IRModule.empty.add (.str "f") (.func (.ofCode 0)) false = .ok m1
      ∧ m1.add (.str "f") (.func (.ofCode 0)) false = .error .DuplicateDefinition
      ∧ Module_Lookup_str m1 "f" = .ok (.ofCode 0)
      ∧ m1.add (.str "f") (.func (.ofCode 1)) true = .ok m2
      ∧ Module_Lookup_str m2 "f" = .ok (.ofCode 1)
      ∧ ∃ h, Module_GetGlobalVar m1 "f" = .ok h
          ∧ Module_GetGlobalVar m2 "f" = .ok h :=
  insert_update_contract IRModule.empty "f" (.ofCode 0) (.ofCode 1) rfl

/-- C5: namespace separation — a function and a type registered under the
same name coexist in one module; after both insertions the function lookup
of the name and get_global_type_var both succeed, and the two getitem paths
return the respective bindings. -/
theorem namespace_separation (m : IRModule) (n : String) (fv : Func) (tv : TyValue) :
    ∃ m1 m2 g,
      m.add (.str n) (.func fv) true = .ok m1
      ∧ m1.add (.str n) (.ty tv) true = .ok m2
      ∧ Module_Lookup_str m2 n = .ok fv
      ∧ Module_GetGlobalTypeVar m2 n = .ok g
      ∧ m2.getItem (.str n) = .ok (.fn fv)
      ∧ m2.getItem (.gtvar g) = .ok (.ty tv) := by
  obtain ⟨m1, h1⟩ := add_str_func_true_ok m n fv
  obtain ⟨m2, h2⟩ := add_str_ty_true_ok m1 n tv
  obtain ⟨g, hg, hld, hfun⟩ := lookupDef_after_add_ty_true m1 n tv m2 h2
  have hl1 : Module_Lookup_str m1 n = .ok fv := lookup_str_after_add_true m n fv m1 h1
  have hl2 : Module_Lookup_str m2 n = .ok fv := by
    have heq : Module_Lookup_str m2 n = Module_Lookup_str m1 n := by
      simp only [Module_Lookup_str, hfun]
    rw [heq]
    exact hl1
  refine ⟨m1, m2, g, h1, h2, hl2, hg, ?_, ?_⟩
  · simp [IRModule.getItem, hl2, Except.map]
  · simp [IRModule.getItem, hld, Except.map]

/-- C1: handle uniquing — once the write path of add has resolved a name in
one of the two namespaces, every later resolution of the same name in that
module returns the same handle (the canonical handle survives rebinding
adds), and resolutions of two different names never return equal handles
(every resolved handle carries its name, so handles for distinct names are
distinct in any module states). -/
theorem handle_uniquing
    (m m1 m2 mt1 mt2 : IRModule) (s s' : String) (f f' : Func) (t t' : TyValue)
    (u u' w w' : Bool)
    (hadd : m.add (.str s) (.func f) u = .ok m1)
    (hadd2 : m1.add (.str s) (.func f') u' = .ok m2)
    (tadd : m.add (.str s) (.ty t) w = .ok mt1)
    (tadd2 : mt1.add (.str s) (.ty t') w' = .ok mt2)
    (hne : s ≠ s') :
    (∃ h, Module_GetGlobalVar m1 s = .ok h ∧ Module_GetGlobalVar m2 s = .ok h)
    ∧ (∃ g, Module_GetGlobalTypeVar mt1 s = .ok g
        ∧ Module_GetGlobalTypeVar mt2 s = .ok g)
    ∧ (∀ (ma mb : IRModule) (h h' : GlobalVar),
        Module_GetGlobalVar ma s = .ok h → Module_GetGlobalVar mb s' = .ok h' →
          h ≠ h')
    ∧ (∀ (ma mb : IRModule) (g g' : GlobalTypeVar),
        Module_GetGlobalTypeVar ma s = .ok g →
          Module_GetGlobalTypeVar mb s' = .ok g' → g ≠ g') := by
  refine ⟨?_, ?_, ?_, ?_⟩
  · obtain ⟨hv, hh⟩ := add_str_func_registers m s f u m1 hadd
    exact ⟨hv, hh, getGlobalVar_stable_add m1 s f' u' m2 hv hh hadd2⟩
  · obtain ⟨g, hg⟩ := add_str_ty_registers m s t w mt1 tadd
    exact ⟨g, hg, getGlobalTypeVar_stable_add mt1 s t' w' mt2 g hg tadd2⟩
  · intro ma mb h h' hh hh' heq
    have h1 := getGlobalVar_ok_name ma s h hh
    have h2 := getGlobalVar_ok_name mb s' h' hh'
    rw [heq] at h1
    exact hne (h1.symm.trans h2)
  · intro ma mb g g' hg hg' heq
    have h1 := getGlobalTypeVar_ok_name ma s g hg
    have h2 := getGlobalTypeVar_ok_name mb s' g' hg'
    rw [heq] at h1
    exact hne (h1.symm.trans h2)

/-- Witness for C1: concrete add chains on the empty module for the name f
in both namespaces, and concrete distinct-name handles shown unequal. -/
theorem handle_uniquing_witness :
    (∃ h, Module_GetGlobalVar
          { functions := [(⟨0, "f"⟩, Func.ofCode 0)], type_definitions := [],
            export_func := none, nextId := 1 } "f" = .ok h
        ∧ Module_GetGlobalVar
          { functions := [(⟨0, "f"⟩, Func.ofCode 1)], type_definitions := [],
            export_func := none, nextId := 1 } "f" = .ok h)
    ∧ (∃ g, Module_GetGlobalTypeVar
          { functions := [], type_definitions := [(⟨0, "f"⟩, ⟨0, []⟩)],
            export_func := none, nextId := 1 } "f" = .ok g
        ∧ Module_GetGlobalTypeVar
          { functions := [], type_definitions := [(⟨0, "f"⟩, ⟨1, []⟩)],
            export_func := none, nextId := 2 } "f" = .ok g)
    ∧ ((⟨0, "f"⟩ : GlobalVar) ≠ ⟨0, "g"⟩)
    ∧ ((⟨0, "f"⟩ : GlobalTypeVar) ≠ ⟨0, "g"⟩) := by
  have H := handle_uniquing IRModule.empty
      { functions := [(⟨0, "f"⟩, Func.ofCode 0)], type_definitions := [],
        export_func := none, nextId := 1 }
      { functions := [(⟨0, "f"⟩, Func.ofCode 1)], type_definitions := [],
        export_func := none, nextId := 1 }
      { functions := [], type_definitions := [(⟨0, "f"⟩, ⟨0, []⟩)],
        export_func := none, nextId := 1 }
      { functions := [], type_definitions := [(⟨0, "f"⟩, ⟨1, []⟩)],
        export_func := none, nextId := 2 }
      "f" "g" (.ofCode 0) (.ofCode 1) ⟨0, []⟩ ⟨1, []⟩ false true false true
      rfl rfl rfl rfl (by decide)
  refine ⟨H.1, H.2.1, ?_, ?_⟩
  · exact H.2.2.1
      { functions := [(⟨0, "f"⟩, Func.ofCode 0)], type_definitions := [],
        export_func := none, nextId := 1 }
      { functions := [(⟨0, "g"⟩, Func.ofCode 0)], type_definitions := [],
        export_func := none, nextId := 1 }
      ⟨0, "f"⟩ ⟨0, "g"⟩ rfl rfl
  · exact H.2.2.2
      { functions := [], type_definitions := [(⟨0, "f"⟩, ⟨0, []⟩)],
        export_func := none, nextId := 1 }
      { functions := [], type_definitions := [(⟨0, "g"⟩, ⟨0, []⟩)],
        export_func := none, nextId := 1 }
      ⟨0, "f"⟩ ⟨0, "g"⟩ rfl rfl

/-- C6: get_type round-trip — registering a type value with constructor
sequence cs under a fresh name and then calling get_type on that name
returns the handle followed by exactly that ordered constructor sequence,
while get_type on a name never registered as a type fails with
UndefinedSymbol. -/
theorem get_type_roundtrip (m : IRModule) (n : String) (tag : Nat) (cs : List Nat)
    (hmiss : m.type_definitions.find? (fun q => q.1.name == n) = none) :
    m.get_type n = .error .UndefinedSymbol
    ∧ ∃ m' g, m.add (.str n) (.ty ⟨tag, cs⟩) true = .ok m'
        ∧ Module_GetGlobalTypeVar m' n = .ok g
        ∧ m'.get_type n = .ok (g, cs) := by
  constructor
  · have h1 : Module_GetGlobalTypeVar m n = .error .UndefinedSymbol := by
      simp [Module_GetGlobalTypeVar, hmiss]
    simp only [IRModule.get_type, h1, except_bind_err]
  · obtain ⟨m', hadd⟩ := add_str_ty_true_ok m n ⟨tag, cs⟩
    obtain ⟨g, hg, hld, -⟩ := lookupDef_after_add_ty_true m n ⟨tag, cs⟩ m' hadd
    refine ⟨m', g, hadd, hg, ?_⟩
    rcases hk : m'.type_definitions.find? (fun q => q.1 == g) with _ | p
    · rw [Module_LookupDef, hk] at hld
      exact absurd hld (by simp)
    · have hp2 : p.2 = ⟨tag, cs⟩ := by
        rw [Module_LookupDef, hk] at hld
        injection hld
      simp only [IRModule.get_type, hg, except_bind_ok, hk]
      rw [hp2]

/-- Witness for C6 at the empty module with name T and constructors 1, 2. -/
theorem get_type_roundtrip_witness :
    IRModule.empty.get_type "T" = .error .UndefinedSymbol
    ∧ ∃ m' g, IRModule.empty.add (.str "T") (.ty ⟨7, [1, 2]⟩) true = .ok m'
        ∧ Module_GetGlobalTypeVar m' "T" = .ok g
        ∧ m'.get_type "T" = .ok (g, [1, 2]) :=
  get_type_roundtrip IRModule.empty "T" 7 [1, 2] rfl

/-- C7: from_expr — with no extra functions and no extra type definitions it
yields a module whose whole function map is the single conventional entry
binding holding the (wrapped if necessary) expression, and the export
designation is exactly that function; supplying a function whose handle is
named like the conventional entry makes it fail with DuplicateDefinition. -/
theorem from_expr_entry (e : RelayExpr) (v : GlobalVar) (f0 : Func)
    (hv : v.name = mainName) :
    (∃ m, Module_FromExpr e [] [] = .ok m
        ∧ m.functions = [(⟨0, mainName⟩, asFunc e)]
        ∧ m.getExport = .ok (asFunc e))
    ∧ Module_FromExpr e [(v, f0)] [] = .error .DuplicateDefinition := by
  constructor
  · exact ⟨{ functions := [(⟨0, mainName⟩, asFunc e)], type_definitions := [],
             export_func := some ⟨0, mainName⟩, nextId := 1 }, rfl, rfl, rfl⟩
  · obtain ⟨vid, vname⟩ := v
    have hv2 : vname = mainName := hv
    subst hv2
    rfl

/-- Witness for C7: a bare expression as entry, and a collision with a
caller-supplied function handle named main. -/
theorem from_expr_entry_witness :
    (∃ m, Module_FromExpr (.bare 3) [] [] = .ok m
        ∧ m.functions = [(⟨0, mainName⟩, asFunc (.bare 3))]
        ∧ m.getExport = .ok (asFunc (.bare 3)))
    ∧ Module_FromExpr (.bare 3) [(⟨5, "main"⟩, .ofCode 9)] []
        = .error .DuplicateDefinition :=
  from_expr_entry (.bare 3) ⟨5, "main"⟩ (.ofCode 9) rfl

/-- C8: construction-time key normalization — when a module is constructed
from mappings, every string key of the functions mapping becomes a GlobalVar
handle of that name and every string key of the type_definitions mapping a
GlobalTypeVar handle, before any loading happens (the normalized key lists
carry exactly the original names in order); a key that is neither a string
nor a handle of the matching kind makes construction fail with
TypeMismatch. -/
theorem construction_key_normalization
    (funcs funcsBad : List (MapKey × Func))
    (tydefs tydefsBad : List (MapKey × TyValue)) (supply : Nat)
    (hgoodF : funcs.all (fun p => p.1.goodFuncKey) = true)
    (hgoodT : tydefs.all (fun p => p.1.goodTypeKey) = true)
    (hbadF : funcsBad.any (fun p => !p.1.goodFuncKey) = true)
    (hbadT : tydefsBad.any (fun p => !p.1.goodTypeKey) = true) :
    (∃ r, normalizeFuncKeys funcs supply = .ok r
       ∧ r.1.map (fun p => p.1.name) = funcs.map (fun p => p.1.funcKeyName))
    ∧ (∃ r, normalizeTypeKeys tydefs supply = .ok r
       ∧ r.1.map (fun p => p.1.name) = tydefs.map (fun p => p.1.funcKeyName))
    ∧ IRModule.ofDicts funcsBad tydefs supply = .error .TypeMismatch
    ∧ IRModule.ofDicts funcs tydefsBad supply = .error .TypeMismatch := by
  have auxF : ∀ (fs : List (MapKey × Func)) (sp : Nat),
      fs.all (fun p => p.1.goodFuncKey) = true →
      ∃ r, normalizeFuncKeys fs sp = .ok r
        ∧ r.1.map (fun p => p.1.name) = fs.map (fun p => p.1.funcKeyName) := by
    intro fs
    induction fs with
    | nil => exact fun sp _ => ⟨([], sp), rfl, rfl⟩
    | cons a tl ih =>
      intro sp hall
      simp only [List.all_cons, Bool.and_eq_true] at hall
      obtain ⟨hhead, htl⟩ := hall
      rcases a with ⟨k, v⟩
      cases k with
      | str s =>
        obtain ⟨r, hr, hmap⟩ := ih (sp + 1) htl
        refine ⟨((⟨sp, s⟩, v) :: r.1, r.2), ?_, ?_⟩
        · simp only [normalizeFuncKeys, hr, except_bind_ok]
        · simp [MapKey.funcKeyName, hmap]
      | gvar g =>
        obtain ⟨r, hr, hmap⟩ := ih sp htl
        refine ⟨((g, v) :: r.1, r.2), ?_, ?_⟩
        · simp only [normalizeFuncKeys, hr, except_bind_ok]
        · simp [MapKey.funcKeyName, hmap]
      | gtvar g => simp [MapKey.goodFuncKey] at hhead
      | other nn => simp [MapKey.goodFuncKey] at hhead
  have auxT : ∀ (ts : List (MapKey × TyValue)) (sp : Nat),
      ts.all (fun p => p.1.goodTypeKey) = true →
      ∃ r, normalizeTypeKeys ts sp = .ok r
        ∧ r.1.map (fun p => p.1.name) = ts.map (fun p => p.1.funcKeyName) := by
    intro ts
    induction ts with
    | nil => exact fun sp _ => ⟨([], sp), rfl, rfl⟩
    | cons a tl ih =>
      intro sp hall
      simp only [List.all_cons, Bool.and_eq_true] at hall
      obtain ⟨hhead, htl⟩ := hall
      rcases a with ⟨k, v⟩
      cases k with
      | str s =>
        obtain ⟨r, hr, hmap⟩ := ih (sp + 1) htl
        refine ⟨((⟨sp, s⟩, v) :: r.1, r.2), ?_, ?_⟩
        · simp only [normalizeTypeKeys, hr, except_bind_ok]
        · simp [MapKey.funcKeyName, hmap]
      | gtvar g =>
        obtain ⟨r, hr, hmap⟩ := ih sp htl
        refine ⟨((g, v) :: r.1, r.2), ?_, ?_⟩
        · simp only [normalizeTypeKeys, hr, except_bind_ok]
        · simp [MapKey.funcKeyName, hmap]
      | gvar g => simp [MapKey.goodTypeKey] at hhead
      | other nn => simp [MapKey.goodTypeKey] at hhead
  have auxFbad : ∀ (fs : List (MapKey × Func)) (sp : Nat),
      fs.any (fun p => !p.1.goodFuncKey) = true →
      normalizeFuncKeys fs sp = .error .TypeMismatch := by
    intro fs
    induction fs with
    | nil => intro sp h; simp at h
    | cons a tl ih =>
      intro sp h
      rcases a with ⟨k, v⟩
      cases k with
      | str s =>
        have htl : tl.any (fun p => !p.1.goodFuncKey) = true := by
          simpa [MapKey.goodFuncKey] using h
        simp only [normalizeFuncKeys, ih (sp + 1) htl, except_bind_err]
      | gvar g =>
        have htl : tl.any (fun p => !p.1.goodFuncKey) = true := by
          simpa [MapKey.goodFuncKey] using h
        simp only [normalizeFuncKeys, ih sp htl, except_bind_err]
      | gtvar g => rfl
      | other nn => rfl
  have auxTbad : ∀ (ts : List (MapKey × TyValue)) (sp : Nat),
      ts.any (fun p => !p.1.goodTypeKey) = true →
      normalizeTypeKeys ts sp = .error .TypeMismatch := by
    intro ts
    induction ts with
    | nil => intro sp h; simp at h
    | cons a tl ih =>
      intro sp h
      rcases a with ⟨k, v⟩
      cases k with
      | str s =>
        simp only [normalizeTypeKeys, ih (sp + 1) (by simpa [MapKey.goodTypeKey] using h),
          except_bind_err]
      | gtvar g =>
        simp only [normalizeTypeKeys, ih sp (by simpa [MapKey.goodTypeKey] using h),
          except_bind_err]
      | gvar g => rfl
      | other nn => rfl
  refine ⟨auxF funcs supply hgoodF, auxT tydefs supply hgoodT, ?_, ?_⟩
  · simp only [IRModule.ofDicts, auxFbad funcsBad supply hbadF, except_bind_err]
  · obtain ⟨r, hr, -⟩ := auxF funcs supply hgoodF
    simp only [IRModule.ofDicts, hr, except_bind_ok,
      auxTbad tydefsBad r.2 hbadT, except_bind_err]

/-- Witness for C8 with a two-entry well-keyed functions mapping, a
well-keyed types mapping, a functions mapping holding a non-string
non-handle key, and a types mapping holding a function-handle key. -/
theorem construction_key_normalization_witness :
    (∃ r, normalizeFuncKeys
          [(.str "a", .ofCode 0), (.gvar ⟨7, "b"⟩, .ofCode 1)] 0 = .ok r
       ∧ r.1.map (fun p => p.1.name)
           = [((MapKey.str "a"), Func.ofCode 0),
              (MapKey.gvar ⟨7, "b"⟩, Func.ofCode 1)].map (fun p => p.1.funcKeyName))
    ∧ (∃ r, normalizeTypeKeys [(.str "T", ⟨0, [1]⟩)] 0 = .ok r
       ∧ r.1.map (fun p => p.1.name)
           = [((MapKey.str "T"), (⟨0, [1]⟩ : TyValue))].map
               (fun p => p.1.funcKeyName))
    ∧ IRModule.ofDicts [(.other 3, .ofCode 0)] [(.str "T", ⟨0, [1]⟩)] 0
        = .error .TypeMismatch
    ∧ IRModule.ofDicts [(.str "a", .ofCode 0), (.gvar ⟨7, "b"⟩, .ofCode 1)]
        [(.gvar ⟨1, "x"⟩, ⟨0, []⟩)] 0 = .error .TypeMismatch :=
  construction_key_normalization
    [(.str "a", .ofCode 0), (.gvar ⟨7, "b"⟩, .ofCode 1)]
    [(.other 3, .ofCode 0)]
    [(.str "T", ⟨0, [1]⟩)]
    [(.gvar ⟨1, "x"⟩, ⟨0, []⟩)]
    0 rfl rfl rfl rfl

/-- C9: the dict branch of update — updating a module with a plain dict is
definitionally constructing a module from the dict under the constructor's
key normalization and merging it with Module_Update; in particular a
single-binding dict lands with last-writer-wins semantics: the name ends up
bound to the dict's value, reusing the receiver's handle when the name
already existed and registering the freshly normalized handle otherwise. -/
theorem update_dict_via_construct (m : IRModule) (d : List (MapKey × Func))
    (supply : Nat) (n : String) (f : Func) :
    m.updateDict d supply
      = (IRModule.ofDicts d [] supply).bind (fun other => Module_Update m other)
    ∧ ∃ m', m.updateDict [(.str n, f)] supply = .ok m'
        ∧ Module_Lookup_str m' n = .ok f
        ∧ (Module_ContainGlobalVar m n = true →
            Module_GetGlobalVar m' n = Module_GetGlobalVar m n)
        ∧ (Module_ContainGlobalVar m n = false →
            Module_GetGlobalVar m' n = .ok ⟨supply, n⟩) := by
  constructor
  · rfl
  · have hofd : IRModule.ofDicts [(.str n, f)] [] supply
        = .ok { functions := [((⟨supply, n⟩ : GlobalVar), f)], type_definitions := [],
                export_func := none, nextId := supply + 1 } := rfl
    have hu : m.updateDict [(.str n, f)] supply = Module_Add m ⟨supply, n⟩ f true := by
      simp only [IRModule.updateDict, hofd, except_bind_ok]
      exact Module_Update_single m _ ⟨supply, n⟩ f rfl rfl
    rcases hp : m.functions.find? (fun q => q.1.name == n) with _ | p
    · have hadd : Module_Add m ⟨supply, n⟩ f true
          = .ok { m with functions := m.functions ++ [((⟨supply, n⟩ : GlobalVar), f)] } :=
        Module_Add_notfound m ⟨supply, n⟩ f true hp
      refine ⟨_, by rw [hu, hadd], ?_, ?_, ?_⟩
      · exact Module_Add_true_gvar_lookup m ⟨supply, n⟩ f _ hadd
      · intro hc
        obtain ⟨p2, hp2⟩ := find?_some_of_contain_true m n hc
        rw [hp] at hp2
        exact absurd hp2 (by simp)
      · intro _
        exact Module_Add_true_getVar_notfound m ⟨supply, n⟩ f _ hp hadd
    · have hadd : Module_Add m ⟨supply, n⟩ f true
          = .ok { m with functions := m.functions.map (fun q =>
              if q.1.name == (⟨supply, n⟩ : GlobalVar).name then (q.1, f) else q) } :=
        Module_Add_found_true m ⟨supply, n⟩ f p hp
      refine ⟨_, by rw [hu, hadd], ?_, ?_, ?_⟩
      · exact Module_Add_true_gvar_lookup m ⟨supply, n⟩ f _ hadd
      · intro _
        exact Module_Add_true_getVar_found m ⟨supply, n⟩ f _ p hp hadd n
      · intro hc
        have h2 := find?_none_of_contain_false m n hc
        rw [hp] at h2
        exact absurd h2 (by simp)
